import Mathlib

/-!
Shallow embedding of open-ly, `main.go`.

The URL shortener keeps two SQLite tables (`links`, `sessions`) and serves a
handful of routes.  Each handler of `main.go` becomes a function from the
request data and the store to a response and the next store.  What the handler
cannot decide by itself (the clock, the random source, the UUID drawn at login,
the process environment, whether a database call reports an error) is passed in
explicitly, so that every branch of the Go code is a branch here.  Timestamps
reach the `sessions` table as the text the driver writes for them, and are
compared there as text; paths are routed without regard to case.
-/

namespace OpenLy

/-! ## Data model -/

/-- An instant, in nanoseconds since 1 January 1970 UTC (the resolution of
Go's `time.Time`). -/
abbrev Time := Int

/-- Go's `time.Hour`, a duration in nanoseconds. -/
def Hour : Int := 3600000000000

/-- Row of `links` (`type Link struct`, table created at main.go:72-77). -/
structure Link where
  ID : Nat
  ShortID : String
  LongURL : String
  CreatedAt : Time
deriving DecidableEq, Repr

/-- Row of `sessions` (table created at main.go:82-87).  `expiry_time` is the
text that the database driver wrote for the `time.Time` bound at main.go:214;
`created_at` is the instant of the insertion. -/
structure Session where
  id : Nat
  session_id : String
  expiry_time : String
  created_at : Time
deriving DecidableEq, Repr

/-- The database: both tables in rowid order, each with the counter that
`AUTOINCREMENT` keeps for it (the largest id ever handed out). -/
structure Store where
  links : List Link
  linksSeq : Nat
  sessions : List Session
  sessionsSeq : Nat
deriving DecidableEq, Repr

/-- The database right after the two `CREATE TABLE` statements. -/
def Store.empty : Store := ⟨[], 0, [], 0⟩

/-! ## Random source and `GenerateShortID` -/

/-- The random source: `r i` is what the `i`-th coming call of `rand.Intn`
returns. -/
abbrev Rand := Nat → Nat

/-- The source after `n` calls. -/
def Rand.drop (n : Nat) (r : Rand) : Rand := fun i => r (i + n)

/-- One call of `rand.Intn`: the draw and the advanced source. -/
def Intn (r : Rand) : Nat × Rand := (r 0, Rand.drop 1 r)

/-- The alphabet of `GenerateShortID` (main.go:308). -/
def charset : List Char := "abcdefghijklmnopqrstuvwxyz0123456789".toList

/-- The `length` of `GenerateShortID` (main.go:309). -/
def length : Nat := 6

/-- The loop of main.go:311-313 over the remaining indices `is` of the buffer:
each turn draws an index and stores `charset[index]` at position `i`.  An index
outside `charset` is a run-time panic in Go, `none` here. -/
def GenerateShortID.loop : List Nat → List Char → Rand → Option (List Char × Rand)
  | [], buf, r => some (buf, r)
  | i :: is, buf, r =>
    match charset[(Intn r).1]? with
    | none => none
    | some c => GenerateShortID.loop is (buf.set i c) (Intn r).2

/-- Embedding of `GenerateShortID` (main.go:307-315): a zeroed buffer of
`length` bytes, filled by the loop and returned as a string, together with the
random source left behind. -/
def GenerateShortID (r : Rand) : Option (String × Rand) :=
  match GenerateShortID.loop (List.range length) (List.replicate length (Char.ofNat 0)) r with
  | none => none
  | some (buf, r') => some (String.mk buf, r')

/-- The class `[a-z0-9]`. -/
def isLowerAlnum (c : Char) : Bool :=
  ('a' ≤ c && c ≤ 'z') || ('0' ≤ c && c ≤ '9')

/-! ## What a handler gets from outside -/

/-- Everything a request reads from outside the program, and the two library
behaviours main.go relies on (`timeText`, `idEq`).  The four error
flags say whether the database call of that kind reports an error for a reason
of its own (the handlers test `err != nil` after each such call); a violated
`UNIQUE` constraint is not listed here, the tables decide it. -/
structure Env where
  /-- Value of `time.Now()`, also the clock behind `CURRENT_TIMESTAMP`. -/
  now : Time
  /-- Value of `os.LookupEnv`. -/
  lookupEnv : String → Option String
  /-- Text that the database driver binds for a `time.Time` of this request:
  the database is opened without a time format (main.go:54), so the driver
  writes the value's `String()`, the wall clock in the process's zone. -/
  timeText : Time → String
  /-- Value of `uuid.New().String()`. -/
  uuid : String
  /-- Does `db.Prepare` return an error. -/
  prepareErr : Bool
  /-- Does `stmt.Exec` return an error of its own. -/
  execErr : Bool
  /-- Does the handler's `db.Query` / `QueryRow(...).Scan` return an error
  of its own. -/
  queryErr : Bool
  /-- Does the `QueryRow(...).Scan` of `currentUserMiddleware` return an
  error. -/
  sessionQueryErr : Bool
  /-- How SQLite compares the integer column `links.id` with the text bound
  to `?` in `WHERE id = ?` (its affinity rules are not part of main.go). -/
  idEq : Nat → String → Bool

/-- Embedding of `GetEnv` (main.go:298-304). -/
def GetEnv (env : Env) (key fallback : String) : String :=
  match env.lookupEnv key with
  | none => fallback
  | some value => value

/-- Embedding of `GetPassword` (main.go:337-339). -/
def GetPassword (env : Env) : String :=
  GetEnv env "ADMIN_PASSWORD" "admin"

/-! ## Responses -/

/-- What the handler sends back. -/
inductive Reply where
  /-- `c.Redirect(location)`. -/
  | redirect (location : String)
  /-- `c.JSON(fiber.Map{...})`, as the list of its fields. -/
  | json (fields : List (String × String))
  /-- `c.Render(view, ...)` with the links handed to the view. -/
  | render (view : String) (links : List Link)
  /-- The request stayed in the `/static` file server (main.go:119-123). -/
  | assets
  /-- No route of main.go took the request. -/
  | unrouted
deriving DecidableEq, Repr

/-- A cookie instruction of the response. -/
inductive CookieOp where
  /-- `c.Cookie(&fiber.Cookie{Name, Value, Expires, HTTPOnly})`. -/
  | set (name value : String) (expires : Time) (httpOnly : Bool)
  /-- `c.ClearCookie(name)`. -/
  | clear (name : String)
deriving DecidableEq, Repr

/-- A response: the reply and the cookie instructions, in order. -/
structure Response where
  reply : Reply
  cookies : List CookieOp
deriving DecidableEq, Repr

/-! ## The SQL statements -/

/-- `stmt.Exec`: an error of the call itself, or else the statement's own
outcome (`none` is an error, the store is then as before). -/
def Exec (env : Env) (outcome : Option Store) : Option Store :=
  if env.execErr then none else outcome

/-- `INSERT INTO links (short_id, long_url) VALUES (?, ?)`: refused when
`short_id` is taken (`UNIQUE`), else a row with the next id and the current
timestamp is appended. -/
def insertLink (st : Store) (short_id long_url : String) (now : Time) : Option Store :=
  if st.links.any (fun l => decide (l.ShortID = short_id)) then none
  else some { st with
    links := st.links ++ [⟨st.linksSeq + 1, short_id, long_url, now⟩]
    linksSeq := st.linksSeq + 1 }

/-- `INSERT INTO sessions (session_id, expiry_time) VALUES (?, ?)`: refused
when `session_id` is taken (`UNIQUE`); `expiry_time` is the bound text. -/
def insertSession (st : Store) (session_id expiry_time : String) (now : Time) :
    Option Store :=
  if st.sessions.any (fun s => decide (s.session_id = session_id)) then none
  else some { st with
    sessions := st.sessions ++ [⟨st.sessionsSeq + 1, session_id, expiry_time, now⟩]
    sessionsSeq := st.sessionsSeq + 1 }

/-- `DELETE FROM sessions WHERE session_id = ?`. -/
def deleteSession (st : Store) (session_id : String) : Store :=
  { st with sessions := st.sessions.filter (fun s => !decide (s.session_id = session_id)) }

/-- `DELETE FROM links WHERE id = ?`, the parameter being the text of the
path segment. -/
def deleteLink (env : Env) (st : Store) (id : String) : Store :=
  { st with links := st.links.filter (fun l => !env.idEq l.ID id) }

/-- `SELECT ... FROM links WHERE short_id = ?` read by `QueryRow`: the first
matching row, if any. -/
def selectLink (st : Store) (short_id : String) : Option Link :=
  st.links.find? (fun l => decide (l.ShortID = short_id))

/-- SQLite's order of two texts: character by character, the shorter text
first when it starts the longer one (the byte order of UTF-8 is the order of
the code points). -/
def textLt : List Char → List Char → Bool
  | [], [] => false
  | [], _ :: _ => true
  | _ :: _, [] => false
  | a :: as, b :: bs =>
    if a.toNat < b.toNat then true
    else if b.toNat < a.toNat then false
    else textLt as bs

/-- `expiry_time > ?` on a stored text and a bound text. -/
def sqlTextGt (stored bound : String) : Bool := textLt bound.data stored.data

/-- `SELECT COUNT(*) FROM sessions WHERE session_id = ? AND expiry_time > ?`;
`now` is the text bound for `time.Now()`, compared as text with the stored
one. -/
def countSessions (st : Store) (session_id now : String) : Nat :=
  (st.sessions.filter
    (fun s => decide (s.session_id = session_id) && sqlTextGt s.expiry_time now)).length

/-! ## Middleware and handlers -/

/-- Embedding of `currentUserMiddleware` (main.go:317-335): the value it stores
under `current_user` (`none` is Go's `nil`) for the cookie value `sessionID`
(empty when the cookie is absent). -/
def currentUserMiddleware (env : Env) (st : Store) (sessionID : String) : Option Nat :=
  if sessionID = "" then none
  else if env.sessionQueryErr ||
      countSessions st sessionID (env.timeText env.now) == 0 then none
  else some 1

/-- `GET /` (main.go:127-129). -/
def getIndex : Response := ⟨.render "index" [], []⟩

/-- `GET /loginadmin` (main.go:131-133). -/
def getLoginadmin : Response := ⟨.render "login" [], []⟩

/-- `GET /admin` (main.go:135-163). -/
def getAdmin (env : Env) (st : Store) (current_user : Option Nat) : Response :=
  match current_user with
  | none => ⟨.render "404" [], []⟩
  | some _ =>
    if env.queryErr then ⟨.render "500" [], []⟩
    else ⟨.render "admin" st.links, []⟩

/-- `GET /new` (main.go:165-171). -/
def getNew (current_user : Option Nat) : Response :=
  match current_user with
  | none => ⟨.render "404" [], []⟩
  | some _ => ⟨.render "new" [], []⟩

/-- `GET /logout` (main.go:173-194); `sessionID` is `c.Cookies("session_id")`. -/
def getLogout (env : Env) (st : Store) (sessionID : String) : Response × Store :=
  if sessionID ≠ "" then
    if env.prepareErr then (⟨.redirect "/", []⟩, st)
    else
      match Exec env (some (deleteSession st sessionID)) with
      | none => (⟨.redirect "/", [.clear "session_id"]⟩, st)
      | some st' => (⟨.redirect "/", [.clear "session_id"]⟩, st')
  else (⟨.redirect "/", [.clear "session_id"]⟩, st)

/-- `POST /loginadmin` (main.go:196-232); `formPassword` is
`c.FormValue("password")`. -/
def postLoginadmin (env : Env) (st : Store) (formPassword : String) : Response × Store :=
  let password := GetPassword env
  if formPassword = password then
    let sessionID := env.uuid
    let expiryTime := env.now + 24 * Hour
    if env.prepareErr then (⟨.redirect "/loginadmin", []⟩, st)
    else
      match Exec env (insertSession st sessionID (env.timeText expiryTime) env.now) with
      | none => (⟨.redirect "/loginadmin", []⟩, st)
      | some st' =>
        (⟨.redirect "/admin", [.set "session_id" sessionID expiryTime true]⟩, st')
  else (⟨.redirect "/loginadmin", []⟩, st)

/-- `POST /shorten` (main.go:234-259); `long_url` is `c.FormValue("long_url")`.
The result carries the random source, which only `GenerateShortID` advances;
`none` is the panic of `GenerateShortID`. -/
def postShorten (env : Env) (st : Store) (rng : Rand) (current_user : Option Nat)
    (long_url : String) : Option (Response × Store × Rand) :=
  match current_user with
  | none => some (⟨.json [("error", "Admin login required")], []⟩, st, rng)
  | some _ =>
    if env.prepareErr then
      some (⟨.json [("error", "Internal Server Error")], []⟩, st, rng)
    else
      match GenerateShortID rng with
      | none => none
      | some (shortID, rng') =>
        match Exec env (insertLink st shortID long_url env.now) with
        | none => some (⟨.json [("error", "Internal Server Error")], []⟩, st, rng')
        | some st' => some (⟨.json [("short_id", shortID)], []⟩, st', rng')

/-- `GET /delete/:id` (main.go:261-280); `id` is `c.Params("id")`. -/
def getDelete (env : Env) (st : Store) (id : String) : Response × Store :=
  if env.prepareErr then (⟨.redirect "/admin", []⟩, st)
  else
    match Exec env (some (deleteLink env st id)) with
    | none => (⟨.redirect "/admin", []⟩, st)
    | some st' => (⟨.redirect "/admin", []⟩, st')

/-- `GET /:short_id` (main.go:282-291); `shortID` is `c.Params("short_id")`. -/
def getShortID (env : Env) (st : Store) (shortID : String) : Response :=
  match (if env.queryErr then none else selectLink st shortID) with
  | none => ⟨.render "404" [], []⟩
  | some link => ⟨.redirect link.LongURL, []⟩

/-! ## Routing -/

/-- Request method; `app.Get` registers its handler for `GET` and `HEAD`. -/
inductive Method where
  | GET
  | HEAD
  | POST
deriving DecidableEq, Repr

/-- The part of a request that main.go reads: method, the segments of the
path, the `session_id` cookie (empty when absent) and the form values (empty
when absent). -/
structure Request where
  method : Method
  path : List String
  session_id : String
  form : String → String

/-- The routes of main.go. -/
inductive Route where
  | assets
  | index
  | loginPage
  | admin
  | newPage
  | logout
  | login
  | shorten
  | delete (id : String)
  | shortID (short_id : String)
  | unrouted
deriving DecidableEq, Repr

/-- ASCII lower case of a path segment.  `fiber.New` at main.go:94 leaves
`CaseSensitive` off, so a path is compared in lower case with the registered
routes, while a parameter keeps the text of the request. -/
def lower (s : String) : String := ⟨s.data.map Char.toLower⟩

/-- Routes reached by `GET` and `HEAD`, tried in the order main.go registers
them: `/static` (119), `/` (127), `/loginadmin` (131), `/admin` (135), `/new`
(165), `/logout` (173), `/delete/:id` (261), `/:short_id` (282).  The path is
the list of its non-empty segments (`StrictRouting` is off as well: a trailing
slash makes no difference). -/
def routeGet : List String → Route
  | [] => .index
  | [a] =>
    if lower a = "static" then .assets
    else if lower a = "loginadmin" then .loginPage
    else if lower a = "admin" then .admin
    else if lower a = "new" then .newPage
    else if lower a = "logout" then .logout
    else .shortID a
  | [a, b] =>
    if lower a = "static" then .assets
    else if lower a = "delete" then .delete b
    else .unrouted
  | a :: _ :: _ :: _ =>
    if lower a = "static" then .assets else .unrouted

/-- Routes reached by `POST`: `/loginadmin` (196), `/shorten` (234). -/
def routePost : List String → Route
  | [a] =>
    if lower a = "loginadmin" then .login
    else if lower a = "shorten" then .shorten
    else .unrouted
  | _ => .unrouted

/-- The route that takes a request. -/
def route (req : Request) : Route :=
  match req.method with
  | .GET => routeGet req.path
  | .HEAD => routeGet req.path
  | .POST => routePost req.path

/-- One request through the application: `currentUserMiddleware` first
(main.go:116), then the handler of the route. -/
def serve (env : Env) (req : Request) (st : Store) (rng : Rand) :
    Option (Response × Store × Rand) :=
  let current_user := currentUserMiddleware env st req.session_id
  match route req with
  | .assets => some (⟨.assets, []⟩, st, rng)
  | .index => some (getIndex, st, rng)
  | .loginPage => some (getLoginadmin, st, rng)
  | .admin => some (getAdmin env st current_user, st, rng)
  | .newPage => some (getNew current_user, st, rng)
  | .logout =>
    some ((getLogout env st req.session_id).1, (getLogout env st req.session_id).2, rng)
  | .login =>
    some ((postLoginadmin env st (req.form "password")).1,
      (postLoginadmin env st (req.form "password")).2, rng)
  | .shorten => postShorten env st rng current_user (req.form "long_url")
  | .delete id => some ((getDelete env st id).1, (getDelete env st id).2, rng)
  | .shortID short_id => some (getShortID env st short_id, st, rng)
  | .unrouted => some (⟨.unrouted, []⟩, st, rng)

/-- A run of requests, each with what it reads from outside. -/
def serveAll : List (Env × Request) → Store → Rand → Option (Store × Rand)
  | [], st, rng => some (st, rng)
  | (env, req) :: rest, st, rng =>
    match serve env req st rng with
    | none => none
    | some (_, st', rng') => serveAll rest st' rng'

/-- The request is a logout carrying the session token `tok`. -/
def revokes (tok : String) (req : Request) : Bool :=
  decide (route req = .logout) && decide (req.session_id = tok)

/-- Value of a decimal numeral, `none` for any other text. -/
def decimalValue (s : String) : Option Nat :=
  s.data.foldl
    (fun acc c =>
      match acc with
      | none => none
      | some n => if c.isDigit then some (10 * n + (c.toNat - 48)) else none)
    (if s.data = [] then none else some 0)

/-- Decimal numeral of `n`, filled with zeros on the left up to width `w`. -/
def numeral (w n : Nat) : List Char :=
  List.replicate (w - (Nat.toDigits 10 n).length) '0' ++ Nat.toDigits 10 n

/-- Year, month and day of the day number `days`, counted from 1970-01-01. -/
def civil (days : Nat) : Nat × Nat × Nat :=
  let z := days + 719468
  let era := z / 146097
  let doe := z % 146097
  let yoe := (doe - doe / 1460 + doe / 36524 - doe / 146096) / 365
  let doy := doe - (365 * yoe + yoe / 4 - yoe / 100)
  let mp := (5 * doy + 2) / 153
  let d := doy - (153 * mp + 2) / 5 + 1
  let m := if mp < 10 then mp + 3 else mp - 9
  (if m ≤ 2 then yoe + era * 400 + 1 else yoe + era * 400, m, d)

/-- Fraction of a second as Go's layout `.999999999` prints it: nothing for a
whole second, else the nine digits without the zeros at the end. -/
def fraction (ns : Nat) : List Char :=
  if ns = 0 then []
  else '.' :: ((numeral 9 ns).reverse.dropWhile (fun c => c == '0')).reverse

/-- A zone of the process: at each instant, the offset from UTC in seconds and
the abbreviation. -/
abbrev Zone := Time → Int × String

/-- What `Time.String()` prints for an instant `t` (nanoseconds since 1970, not
before it) read with `time.Now()` in the zone `zone` by a process started at
`start`, or derived from such a reading by `Add`: the layout
`2006-01-02 15:04:05.999999999 -0700 MST`, then the monotonic clock. -/
def goTimeText (zone : Zone) (start t : Time) : String :=
  let off := (zone t).1
  let secs := (t / 1000000000 + off).toNat
  let ns := (t % 1000000000).toNat
  let ymd := civil (secs / 86400)
  let sod := secs % 86400
  let mono := (t - start + 1).toNat
  String.mk
    (numeral 4 ymd.1 ++ '-' :: numeral 2 ymd.2.1 ++ '-' :: numeral 2 ymd.2.2 ++
      ' ' :: numeral 2 (sod / 3600) ++ ':' :: numeral 2 (sod % 3600 / 60) ++
      ':' :: numeral 2 (sod % 60) ++ fraction ns ++
      ' ' :: (if 0 ≤ off then '+' else '-') :: numeral 2 (off.natAbs / 3600) ++
      numeral 2 (off.natAbs % 3600 / 60) ++ ' ' :: (zone t).2.data ++
      " m=+".data ++ numeral 1 (mono / 1000000000) ++ '.' :: numeral 9 (mono % 1000000000))

/-- The zone UTC. -/
def utcZone : Zone := fun _ => (0, "UTC")

/-- The zone America/Los_Angeles around 3 November 2024, when at 09:00 UTC the
clocks went back from 02:00 PDT to 01:00 PST. -/
def pacificZone : Zone := fun t =>
  if t < 1730624400 * 1000000000 then (-25200, "PDT") else (-28800, "PST")

/-- An environment in which no database call fails by itself; the process runs
in UTC since instant 0, and a text equals an id when it is a decimal numeral
of it. -/
def Env.plain (now : Time) (uuid : String) : Env :=
  { now := now, lookupEnv := fun _ => none, timeText := goTimeText utcZone 0, uuid := uuid,
    prepareErr := false, execErr := false, queryErr := false, sessionQueryErr := false,
    idEq := fun n s => decide (decimalValue s = some n) }

/-- The environment `Env.plain` of a process that runs in America/Los_Angeles
since 2 November 2024, 08:00 UTC. -/
def Env.pacific (now : Time) (uuid : String) : Env :=
  { Env.plain now uuid with timeText := goTimeText pacificZone (1730534400 * 1000000000) }

/-- The list of the short ids of the stored links. -/
def shortIDs (st : Store) : List String := st.links.map (fun l => l.ShortID)

/-- The store holds a session row for `tok` with the expiry text `expiry`, and
no row for `tok` with another expiry text. -/
def holdsSession (tok expiry : String) (st : Store) : Prop :=
  (∃ row ∈ st.sessions, row.session_id = tok ∧ row.expiry_time = expiry) ∧
  ∀ row ∈ st.sessions, row.session_id = tok → row.expiry_time = expiry

/-! ## Sample inputs -/

/-- The draws 11, 14, 6, 14, 20, 19 and then zeros. -/
def drawsLogout : Rand := fun i => [11, 14, 6, 14, 20, 19].getD i 0

/-- The draws 0, 27, 1, 28, 2, 29 and then zeros. -/
def drawsSample : Rand := fun i => [0, 27, 1, 28, 2, 29].getD i 0

/-- The session `tok`, written by `Env.plain` with the expiry instant 100. -/
def sessionTok : Session := ⟨1, "tok", goTimeText utcZone 0 100, 0⟩

/-- A store holding one session, `tok`, that expires at instant 100. -/
def storeOneSession : Store := ⟨[], 0, [sessionTok], 1⟩

/-- A store holding one link, of id 1 and short id `a1b2c3`, and the session
`tok` that expires at instant 100. -/
def storeOneLink : Store :=
  ⟨[⟨1, "a1b2c3", "https://example.com", 5⟩], 1, [sessionTok], 1⟩

/-- A request without cookie and without form values. -/
def bareRequest (method : Method) (path : List String) : Request :=
  ⟨method, path, "", fun _ => ""⟩

/-- The environment `Env.plain` in which `db.Prepare` fails. -/
def Env.prepareFails (now : Time) (uuid : String) : Env :=
  { Env.plain now uuid with prepareErr := true }

/-! ## Short ids -/

theorem charset_length : charset.length = 36 := by decide

theorem charset_all_lowerAlnum : ∀ c ∈ charset, isLowerAlnum c = true := by decide

/-- Every index a draw below 36 can give is inside `charset`. -/
theorem charset_getElem? (k : Nat) (hk : k < 36) :
    ∃ c, charset[k]? = some c ∧ isLowerAlnum c = true := by
  have hlt : k < charset.length := by rw [charset_length]; exact hk
  exact ⟨charset[k], List.getElem?_eq_getElem hlt,
    charset_all_lowerAlnum _ (List.getElem_mem hlt)⟩

/-- What `GenerateShortID` computes when all six draws are in range. -/
theorem GenerateShortID_eq (r : Rand) (h : ∀ i, i < 6 → r i < 36) :
    ∃ c0 c1 c2 c3 c4 c5 : Char,
      charset[r 0]? = some c0 ∧ charset[r 1]? = some c1 ∧ charset[r 2]? = some c2 ∧
      charset[r 3]? = some c3 ∧ charset[r 4]? = some c4 ∧ charset[r 5]? = some c5 ∧
      (∀ c ∈ [c0, c1, c2, c3, c4, c5], isLowerAlnum c = true) ∧
      GenerateShortID r = some (String.mk [c0, c1, c2, c3, c4, c5], Rand.drop 6 r) := by
  obtain ⟨c0, h0, a0⟩ := charset_getElem? (r 0) (h 0 (by omega))
  obtain ⟨c1, h1, a1⟩ := charset_getElem? (r 1) (h 1 (by omega))
  obtain ⟨c2, h2, a2⟩ := charset_getElem? (r 2) (h 2 (by omega))
  obtain ⟨c3, h3, a3⟩ := charset_getElem? (r 3) (h 3 (by omega))
  obtain ⟨c4, h4, a4⟩ := charset_getElem? (r 4) (h 4 (by omega))
  obtain ⟨c5, h5, a5⟩ := charset_getElem? (r 5) (h 5 (by omega))
  refine ⟨c0, c1, c2, c3, c4, c5, h0, h1, h2, h3, h4, h5, ?_, ?_⟩
  · intro c hc
    simp only [List.mem_cons, List.mem_singleton, List.not_mem_nil, or_false] at hc
    rcases hc with rfl | rfl | rfl | rfl | rfl | rfl <;> assumption
  · have hr : List.range length = [0, 1, 2, 3, 4, 5] := by decide
    have hz : List.replicate length (Char.ofNat 0) =
        [Char.ofNat 0, Char.ofNat 0, Char.ofNat 0, Char.ofNat 0, Char.ofNat 0, Char.ofNat 0] := by
      decide
    simp only [GenerateShortID, hr, hz, GenerateShortID.loop, Intn, Rand.drop, Nat.zero_add,
      h0, h1, h2, h3, h4, h5, List.set_cons_zero, List.set_cons_succ]
    rfl

/-- C2. For every outcome of the random source whose first six draws are below
36, `GenerateShortID` returns (no index panic) a string of length exactly 6
whose `i`-th character is `charset` at the `i`-th draw; every character of it is
in `[a-z0-9]`, and exactly six draws are used. -/
theorem GenerateShortID_spec (r : Rand) (h : ∀ i, i < 6 → r i < 36) :
    ∃ s : String, GenerateShortID r = some (s, Rand.drop 6 r) ∧ s.length = 6 ∧
      (∀ i, i < 6 → r i < charset.length ∧ s.data[i]? = charset[r i]?) ∧
      (∀ c ∈ s.data, isLowerAlnum c = true) := by
  obtain ⟨c0, c1, c2, c3, c4, c5, h0, h1, h2, h3, h4, h5, hall, hgen⟩ :=
    GenerateShortID_eq r h
  refine ⟨_, hgen, rfl, ?_, hall⟩
  intro i hi
  refine ⟨by rw [charset_length]; exact h i hi, ?_⟩
  have : i = 0 ∨ i = 1 ∨ i = 2 ∨ i = 3 ∨ i = 4 ∨ i = 5 := by omega
  rcases this with rfl | rfl | rfl | rfl | rfl | rfl
  · simpa using h0.symm
  · simpa using h1.symm
  · simpa using h2.symm
  · simpa using h3.symm
  · simpa using h4.symm
  · simpa using h5.symm

theorem GenerateShortID_spec_witness :
    (∀ i, i < 6 → drawsLogout i < 36) ∧
    ∃ s : String, GenerateShortID drawsLogout = some (s, Rand.drop 6 drawsLogout) ∧
      s.length = 6 ∧
      (∀ i, i < 6 → drawsLogout i < charset.length ∧ s.data[i]? = charset[drawsLogout i]?) ∧
      (∀ c ∈ s.data, isLowerAlnum c = true) :=
  ⟨by decide, GenerateShortID_spec drawsLogout (by decide)⟩

/-! ## The statements on the tables -/

theorem insertLink_eq_some {st st' : Store} {s u : String} {now : Time}
    (h : insertLink st s u now = some st') :
    (∀ l ∈ st.links, l.ShortID ≠ s) ∧
    st' = { st with links := st.links ++ [⟨st.linksSeq + 1, s, u, now⟩]
                    linksSeq := st.linksSeq + 1 } := by
  unfold insertLink at h
  split at h
  · exact absurd h (by simp)
  · rename_i hany
    refine ⟨?_, ?_⟩
    · intro l hl heq
      exact hany (List.any_eq_true.mpr ⟨l, hl, by simpa using heq⟩)
    · simpa using h.symm

theorem insertLink_eq_none_of_mem {st : Store} {s u : String} {now : Time}
    (h : ∃ l ∈ st.links, l.ShortID = s) : insertLink st s u now = none := by
  obtain ⟨l, hl, heq⟩ := h
  have hany : st.links.any (fun l => decide (l.ShortID = s)) = true :=
    List.any_eq_true.mpr ⟨l, hl, by simpa using heq⟩
  simp [insertLink, hany]

theorem selectLink_eq_none {st : Store} {s : String}
    (h : ∀ l ∈ st.links, l.ShortID ≠ s) : selectLink st s = none := by
  unfold selectLink
  rw [List.find?_eq_none]
  intro l hl
  simpa using h l hl

theorem selectLink_append_new (links : List Link) (n m : Nat) (sn : List Session)
    (l : Link) (h : ∀ x ∈ links, x.ShortID ≠ l.ShortID) :
    selectLink ⟨links ++ [l], n, sn, m⟩ l.ShortID = some l := by
  unfold selectLink
  induction links with
  | nil => simp
  | cons x xs ih =>
    have hx : x.ShortID ≠ l.ShortID := h x (List.mem_cons_self _ _)
    have hxs : ∀ y ∈ xs, y.ShortID ≠ l.ShortID :=
      fun y hy => h y (List.mem_cons_of_mem _ hy)
    simpa [List.find?_cons, hx] using ih hxs

/-- With distinct short ids, the row found for `l.ShortID` is `l`. -/
theorem selectLink_of_mem_nodup {st : Store} {l : Link}
    (hnd : (st.links.map (fun x => x.ShortID)).Nodup) (hl : l ∈ st.links) :
    selectLink st l.ShortID = some l := by
  unfold selectLink
  generalize st.links = links at hnd hl
  induction links with
  | nil => cases hl
  | cons x xs ih =>
    rw [List.map_cons, List.nodup_cons] at hnd
    rcases List.mem_cons.mp hl with rfl | hmem
    · simp [List.find?_cons]
    · have hx : x.ShortID ≠ l.ShortID := by
        intro heq
        exact hnd.1 (heq ▸ List.mem_map_of_mem (fun x => x.ShortID) hmem)
      simpa [List.find?_cons, hx] using ih hnd.2 hmem

theorem selectLink_some_of_exists {st : Store} {s : String}
    (h : ∃ l ∈ st.links, l.ShortID = s) :
    ∃ l ∈ st.links, l.ShortID = s ∧ selectLink st s = some l := by
  unfold selectLink
  cases hf : st.links.find? (fun l => decide (l.ShortID = s)) with
  | none =>
    obtain ⟨l, hl, heq⟩ := h
    have := List.find?_eq_none.mp hf l hl
    simp [heq] at this
  | some l =>
    exact ⟨l, List.mem_of_find?_eq_some hf, by simpa using List.find?_some hf, rfl⟩

/-! ## Create and Resolve -/

/-- What a `POST /shorten` that answers with a short id has done. -/
theorem postShorten_success {env : Env} {st st' : Store} {rng rng' : Rand}
    {cu : Option Nat} {long_url s : String} {resp : Response}
    (h : postShorten env st rng cu long_url = some (resp, st', rng'))
    (hs : resp.reply = .json [("short_id", s)]) :
    insertLink st s long_url env.now = some st' ∧ (∃ r, GenerateShortID rng = some (s, r)) := by
  unfold postShorten at h
  cases cu with
  | none =>
    simp only [Option.some.injEq, Prod.mk.injEq] at h
    rw [← h.1] at hs
    simp at hs
  | some u =>
    simp only at h
    split at h
    · simp only [Option.some.injEq, Prod.mk.injEq] at h
      rw [← h.1] at hs
      simp at hs
    · cases hg : GenerateShortID rng with
      | none => rw [hg] at h; simp at h
      | some p =>
        obtain ⟨sid, r1⟩ := p
        rw [hg] at h
        simp only at h
        cases he : Exec env (insertLink st sid long_url env.now) with
        | none =>
          rw [he] at h
          simp only [Option.some.injEq, Prod.mk.injEq] at h
          rw [← h.1] at hs
          simp at hs
        | some st1 =>
          rw [he] at h
          simp only [Option.some.injEq, Prod.mk.injEq] at h
          rw [← h.1] at hs
          simp only [Reply.json.injEq, List.cons.injEq, Prod.mk.injEq, true_and,
            and_true] at hs
          subst hs
          unfold Exec at he
          split at he
          · simp at he
          · rw [he, h.2.1]
            exact ⟨rfl, r1, rfl⟩

/-- The handler of `/:short_id`, run for the short id that `POST /shorten` just
answered, finds the row that was inserted. -/
theorem getShortID_after_postShorten {env env' : Env} {st st' : Store} {rng rng' : Rand}
    {cu : Option Nat} {long_url s : String} {resp : Response}
    (hcreate : postShorten env st rng cu long_url = some (resp, st', rng'))
    (hs : resp.reply = .json [("short_id", s)])
    (hq : env'.queryErr = false) :
    getShortID env' st' s = ⟨.redirect long_url, []⟩ := by
  obtain ⟨hins, _⟩ := postShorten_success hcreate hs
  obtain ⟨hfresh, rfl⟩ := insertLink_eq_some hins
  have hsel := selectLink_append_new st.links (st.linksSeq + 1) st.sessionsSeq
    st.sessions ⟨st.linksSeq + 1, s, long_url, env.now⟩ hfresh
  simp only at hsel
  simp [getShortID, hq, hsel]

/-- C1. Create/Resolve round trip: whenever `POST /shorten`, asked by an
authenticated actor on any store with any long URL, answers with the short id
`s`, the `GET /:short_id` handler run for `s` on the resulting store (its lookup
reporting no error of its own) redirects to exactly the submitted long URL. -/
theorem create_resolve_round_trip (env env' : Env) (st st' : Store) (rng rng' : Rand)
    (user : Nat) (long_url s : String) (resp : Response)
    (hcreate : postShorten env st rng (some user) long_url = some (resp, st', rng'))
    (hs : resp.reply = .json [("short_id", s)])
    (hq : env'.queryErr = false) :
    getShortID env' st' s = ⟨.redirect long_url, []⟩ :=
  getShortID_after_postShorten hcreate hs hq

theorem create_resolve_round_trip_witness :
    postShorten (Env.plain 5 "u") storeOneSession drawsSample (some 1) "https://example.com"
      = some (⟨.json [("short_id", "a1b2c3")], []⟩, storeOneLink,
          Rand.drop 6 drawsSample) ∧
    getShortID (Env.plain 9 "v") storeOneLink "a1b2c3"
      = ⟨.redirect "https://example.com", []⟩ :=
  ⟨rfl, create_resolve_round_trip (Env.plain 5 "u") (Env.plain 9 "v") storeOneSession _
    drawsSample _ 1 "https://example.com" "a1b2c3" _ rfl rfl rfl⟩

/-- C9. Resolve of an unknown short id is the not-found page and no redirect:
on every store, for every `s` that is the short id of no stored link,
`GET /:short_id` renders `404`, whatever the lookup reports.  When a link with
exactly that short id is stored and the lookup reports no error of its own, the
handler redirects to the long URL of such a link; short ids being distinct (the
`UNIQUE` column), that is the long URL of the one link with that short id. -/
theorem getShortID_spec (env : Env) (st : Store) (s : String) :
    ((∀ l ∈ st.links, l.ShortID ≠ s) →
      getShortID env st s = ⟨.render "404" [], []⟩ ∧
      ∀ loc, (getShortID env st s).reply ≠ .redirect loc) ∧
    ((∃ l ∈ st.links, l.ShortID = s) → env.queryErr = false →
      ∃ l ∈ st.links, l.ShortID = s ∧ getShortID env st s = ⟨.redirect l.LongURL, []⟩) ∧
    ((st.links.map (fun x => x.ShortID)).Nodup → env.queryErr = false →
      ∀ l ∈ st.links, l.ShortID = s → getShortID env st s = ⟨.redirect l.LongURL, []⟩) := by
  refine ⟨?_, ?_, ?_⟩
  · intro h
    have hsel := selectLink_eq_none h
    have : getShortID env st s = ⟨.render "404" [], []⟩ := by
      unfold getShortID
      cases env.queryErr <;> simp [hsel]
    rw [this]
    exact ⟨rfl, fun loc => by simp⟩
  · intro h hq
    obtain ⟨l, hl, heq, hsel⟩ := selectLink_some_of_exists h
    exact ⟨l, hl, heq, by simp [getShortID, hq, hsel]⟩
  · intro hnd hq l hl heq
    have hsel := selectLink_of_mem_nodup hnd hl
    rw [heq] at hsel
    simp [getShortID, hq, hsel]

theorem getShortID_spec_witness :
    (∀ l ∈ storeOneLink.links, l.ShortID ≠ "zzzzzz") ∧
    getShortID (Env.plain 9 "v") storeOneLink "zzzzzz" = ⟨.render "404" [], []⟩ ∧
    (storeOneLink.links.map (fun x => x.ShortID)).Nodup ∧
    (⟨1, "a1b2c3", "https://example.com", 5⟩ : Link) ∈ storeOneLink.links ∧
    getShortID (Env.plain 9 "v") storeOneLink "a1b2c3"
      = ⟨.redirect "https://example.com", []⟩ :=
  ⟨by decide,
   ((getShortID_spec (Env.plain 9 "v") storeOneLink "zzzzzz").1 (by decide)).1,
   by decide, by decide,
   (getShortID_spec (Env.plain 9 "v") storeOneLink "a1b2c3").2.2 (by decide) rfl
     ⟨1, "a1b2c3", "https://example.com", 5⟩ (by decide) rfl⟩

/-! ## Requests of an anonymous actor -/

/-- C7. Create requires an authenticated actor: on every store and for every
long URL, `POST /shorten` without a current user answers with the JSON object
whose only field is `error`, leaves the store as it is and draws nothing from
the random source (no short id is generated); this is what every request routed
to `/shorten` gets when the middleware finds no valid session. -/
theorem postShorten_anonymous (env : Env) (st : Store) (rng : Rand) (long_url : String) :
    postShorten env st rng none long_url
      = some (⟨.json [("error", "Admin login required")], []⟩, st, rng) ∧
    (∀ v, ("short_id", v) ∉ [("error", "Admin login required")]) ∧
    ∀ req : Request, route req = .shorten →
      currentUserMiddleware env st req.session_id = none →
      serve env req st rng
        = some (⟨.json [("error", "Admin login required")], []⟩, st, rng) := by
  refine ⟨rfl, ?_, ?_⟩
  · intro v hv
    simp at hv
  · intro req hr hcu
    simp [serve, hr, hcu, postShorten]

theorem postShorten_anonymous_witness :
    route ⟨.POST, ["shorten"], "stale", fun _ => "https://example.com"⟩ = .shorten ∧
    currentUserMiddleware (Env.plain 200 "u") storeOneLink "stale" = none ∧
    serve (Env.plain 200 "u") ⟨.POST, ["shorten"], "stale", fun _ => "https://example.com"⟩
        storeOneLink drawsSample
      = some (⟨.json [("error", "Admin login required")], []⟩, storeOneLink, drawsSample) :=
  ⟨rfl, by decide,
   (postShorten_anonymous (Env.plain 200 "u") storeOneLink drawsSample "x").2.2
     ⟨.POST, ["shorten"], "stale", fun _ => "https://example.com"⟩ rfl (by decide)⟩

/-- C6 (the code departs from the claim). `GET /delete/1` sent without any
session cookie: the middleware finds no current user, and the handler, which
never reads `current_user`, deletes the link of id 1 all the same. -/
theorem getDelete_anonymous_deletes :
    currentUserMiddleware (Env.plain 9 "v") storeOneLink
      (bareRequest .GET ["delete", "1"]).session_id = none ∧
    storeOneLink.links = [⟨1, "a1b2c3", "https://example.com", 5⟩] ∧
    (serve (Env.plain 9 "v") (bareRequest .GET ["delete", "1"]) storeOneLink drawsSample).map
        (fun out => (out.1, out.2.1))
      = some (⟨.redirect "/admin", []⟩, { storeOneLink with links := [] }) := by
  refine ⟨by decide, rfl, ?_⟩
  decide

/-! ## Login and logout -/

/-- C4. Authenticate with an incorrect password: on every store, for every
submitted password different from the configured one, `POST /loginadmin`
redirects to `/loginadmin`, sets no cookie and leaves the whole store (the
sessions and the links) as it is. -/
theorem postLoginadmin_wrong_password (env : Env) (st : Store) (submitted : String)
    (h : submitted ≠ GetPassword env) :
    postLoginadmin env st submitted = (⟨.redirect "/loginadmin", []⟩, st) := by
  simp [postLoginadmin, h]

theorem postLoginadmin_wrong_password_witness :
    "hunter2" ≠ GetPassword (Env.plain 9 "v") ∧
    postLoginadmin (Env.plain 9 "v") storeOneLink "hunter2"
      = (⟨.redirect "/loginadmin", []⟩, storeOneLink) :=
  ⟨by decide, postLoginadmin_wrong_password (Env.plain 9 "v") storeOneLink "hunter2" (by decide)⟩

/-- C5 (the code departs from the claim). `GET /logout` with the cookie `tok`
when `db.Prepare` fails: the handler returns from inside the error branch
(main.go:180-183), so the response is the redirect to `/` with no cookie
instruction at all, and the session row stays. -/
theorem getLogout_prepare_error_keeps_cookie :
    getLogout (Env.prepareFails 9 "v") storeOneSession "tok"
      = (⟨.redirect "/", []⟩, storeOneSession) := by
  decide

/-- Every other path through `GET /logout` clears the cookie: no cookie sent,
or the statement prepared (whether its execution fails or not). -/
theorem getLogout_clears_cookie (env : Env) (st : Store) (sessionID : String)
    (h : sessionID = "" ∨ env.prepareErr = false) :
    (getLogout env st sessionID).1 = ⟨.redirect "/", [.clear "session_id"]⟩ := by
  unfold getLogout Exec
  rcases h with h | h
  · simp [h]
  · by_cases hs : sessionID = "" <;> cases he : env.execErr <;> simp [h, hs]

/-! ## Delete -/

/-- C10. Delete removes exactly the link with the given id.  On every store and
for every id, `GET /delete/:id` redirects to `/admin`, leaves the sessions as
they are, keeps every link whose id is not the given one, and changes nothing
at all when no link has that id; when the statement is prepared and executed,
the links left are the original ones without the rows of that id, and nothing
else of the store changes. -/
theorem getDelete_spec (env : Env) (st : Store) (id : String) :
    (getDelete env st id).1 = ⟨.redirect "/admin", []⟩ ∧
    (getDelete env st id).2.sessions = st.sessions ∧
    (∀ l ∈ st.links, env.idEq l.ID id = false → l ∈ (getDelete env st id).2.links) ∧
    ((∀ l ∈ st.links, env.idEq l.ID id = false) → (getDelete env st id).2 = st) ∧
    (env.prepareErr = false → env.execErr = false →
      (getDelete env st id).2
        = { st with links := st.links.filter (fun l => !env.idEq l.ID id) }) := by
  have hcases : (getDelete env st id).1 = ⟨.redirect "/admin", []⟩ ∧
      ((getDelete env st id).2 = st ∨
        ((env.prepareErr = false ∧ env.execErr = false) ∧
          (getDelete env st id).2 = deleteLink env st id)) := by
    unfold getDelete Exec
    cases env.prepareErr <;> cases env.execErr <;> simp
  obtain ⟨h1, h2⟩ := hcases
  have hnoop : (∀ l ∈ st.links, env.idEq l.ID id = false) → deleteLink env st id = st := by
    intro h
    have : st.links.filter (fun l => !env.idEq l.ID id) = st.links :=
      List.filter_eq_self.mpr (fun l hl => by simp [h l hl])
    simp [deleteLink, this]
  refine ⟨h1, ?_, ?_, ?_, ?_⟩
  · rcases h2 with h | ⟨_, h⟩ <;> rw [h]
    rfl
  · intro l hl hne
    rcases h2 with h | ⟨_, h⟩ <;> rw [h]
    · exact hl
    · exact List.mem_filter.mpr ⟨hl, by simp [hne]⟩
  · intro h
    rcases h2 with h' | ⟨_, h'⟩
    · exact h'
    · rw [h', hnoop h]
  · intro hp he
    unfold getDelete Exec
    simp [hp, he, deleteLink]

theorem getDelete_spec_witness :
    (∀ l ∈ storeOneLink.links, (Env.plain 9 "v").idEq l.ID "7" = false) ∧
    (getDelete (Env.plain 9 "v") storeOneLink "7").2 = storeOneLink ∧
    (Env.plain 9 "v").prepareErr = false ∧ (Env.plain 9 "v").execErr = false ∧
    (getDelete (Env.plain 9 "v") storeOneLink "1").2
      = { storeOneLink with
          links := storeOneLink.links.filter (fun l => !(Env.plain 9 "v").idEq l.ID "1") } ∧
    (storeOneLink.links.filter (fun l => !(Env.plain 9 "v").idEq l.ID "1")) = [] :=
  ⟨by decide,
   (getDelete_spec (Env.plain 9 "v") storeOneLink "7").2.2.2.1 (by decide),
   rfl, rfl,
   (getDelete_spec (Env.plain 9 "v") storeOneLink "1").2.2.2.2 rfl rfl,
   by decide⟩

/-! ## Uniqueness of short ids -/

theorem insertLink_nodup {st st' : Store} {s u : String} {now : Time}
    (hnd : (shortIDs st).Nodup) (h : insertLink st s u now = some st') :
    (shortIDs st').Nodup := by
  obtain ⟨hfresh, rfl⟩ := insertLink_eq_some h
  unfold shortIDs at hnd ⊢
  simp only [List.map_append, List.map_cons, List.map_nil]
  refine List.Nodup.append hnd (List.nodup_singleton _) ?_
  intro x hx hx'
  rw [List.mem_singleton] at hx'
  obtain ⟨l, hl, rfl⟩ := List.mem_map.mp hx
  exact hfresh l hl hx'

theorem deleteLink_nodup {env : Env} {st : Store} {id : String}
    (hnd : (shortIDs st).Nodup) : (shortIDs (deleteLink env st id)).Nodup := by
  unfold shortIDs deleteLink at *
  exact List.Nodup.sublist ((List.filter_sublist _).map _) hnd

theorem getDelete_nodup {env : Env} {st : Store} {id : String}
    (hnd : (shortIDs st).Nodup) : (shortIDs (getDelete env st id).2).Nodup := by
  unfold getDelete Exec
  cases env.prepareErr <;> cases env.execErr <;> simp <;>
    first | exact hnd | exact deleteLink_nodup hnd

theorem getLogout_links (env : Env) (st : Store) (c : String) :
    (getLogout env st c).2.links = st.links := by
  unfold getLogout Exec
  by_cases hc : c = "" <;> cases env.prepareErr <;> cases env.execErr <;>
    simp [hc, deleteSession]

theorem insertSession_eq_some {st st' : Store} {tok expiry : String} {now : Time}
    (h : insertSession st tok expiry now = some st') :
    (∀ row ∈ st.sessions, row.session_id ≠ tok) ∧
    st' = { st with sessions := st.sessions ++ [⟨st.sessionsSeq + 1, tok, expiry, now⟩]
                    sessionsSeq := st.sessionsSeq + 1 } := by
  unfold insertSession at h
  split at h
  · exact absurd h (by simp)
  · rename_i hany
    refine ⟨?_, ?_⟩
    · intro row hrow heq
      exact hany (List.any_eq_true.mpr ⟨row, hrow, by simpa using heq⟩)
    · simpa using h.symm

/-- The store after `POST /loginadmin`: as before, or with the session row
inserted; the second only together with the redirect to `/admin` and the
cookie. -/
theorem postLoginadmin_cases (env : Env) (st : Store) (pw : String) :
    ((postLoginadmin env st pw).1 = ⟨.redirect "/loginadmin", []⟩ ∧
      (postLoginadmin env st pw).2 = st) ∨
    ((postLoginadmin env st pw).1
        = ⟨.redirect "/admin", [.set "session_id" env.uuid (env.now + 24 * Hour) true]⟩ ∧
      insertSession st env.uuid (env.timeText (env.now + 24 * Hour)) env.now
        = some (postLoginadmin env st pw).2) := by
  unfold postLoginadmin Exec
  by_cases hpw : pw = GetPassword env
  · cases hp : env.prepareErr
    · cases he : env.execErr
      · cases hi : insertSession st env.uuid (env.timeText (env.now + 24 * Hour)) env.now <;>
          simp [hpw, hi]
      · simp [hpw]
    · simp [hpw]
  · simp [hpw]

theorem postLoginadmin_links (env : Env) (st : Store) (pw : String) :
    (postLoginadmin env st pw).2.links = st.links := by
  rcases postLoginadmin_cases env st pw with ⟨_, h⟩ | ⟨_, h⟩
  · rw [h]
  · obtain ⟨_, h'⟩ := insertSession_eq_some h
    rw [h']

theorem postShorten_nodup {env : Env} {st st' : Store} {rng rng' : Rand} {cu : Option Nat}
    {long_url : String} {resp : Response} (hnd : (shortIDs st).Nodup)
    (h : postShorten env st rng cu long_url = some (resp, st', rng')) :
    (shortIDs st').Nodup := by
  unfold postShorten at h
  cases cu with
  | none =>
    simp only [Option.some.injEq, Prod.mk.injEq] at h
    rw [← h.2.1]; exact hnd
  | some u =>
    simp only at h
    split at h
    · simp only [Option.some.injEq, Prod.mk.injEq] at h
      rw [← h.2.1]; exact hnd
    · cases hg : GenerateShortID rng with
      | none => rw [hg] at h; simp at h
      | some p =>
        obtain ⟨sid, r1⟩ := p
        rw [hg] at h
        simp only at h
        cases he : Exec env (insertLink st sid long_url env.now) with
        | none =>
          rw [he] at h
          simp only [Option.some.injEq, Prod.mk.injEq] at h
          rw [← h.2.1]; exact hnd
        | some st1 =>
          rw [he] at h
          simp only [Option.some.injEq, Prod.mk.injEq] at h
          rw [← h.2.1]
          unfold Exec at he
          split at he
          · simp at he
          · exact insertLink_nodup hnd he

/-- One request keeps the short ids distinct. -/
theorem serve_nodup {env : Env} {req : Request} {st st' : Store} {rng rng' : Rand}
    {resp : Response} (hnd : (shortIDs st).Nodup)
    (h : serve env req st rng = some (resp, st', rng')) : (shortIDs st').Nodup := by
  unfold serve at h
  cases hr : route req <;> rw [hr] at h <;> simp only at h
  case shorten => exact postShorten_nodup hnd h
  case delete id =>
    simp only [Option.some.injEq, Prod.mk.injEq] at h
    rw [← h.2.1]; exact getDelete_nodup hnd
  case logout =>
    simp only [Option.some.injEq, Prod.mk.injEq] at h
    rw [← h.2.1]; unfold shortIDs; rw [getLogout_links]; exact hnd
  case login =>
    simp only [Option.some.injEq, Prod.mk.injEq] at h
    rw [← h.2.1]; unfold shortIDs; rw [postLoginadmin_links]; exact hnd
  all_goals
    simp only [Option.some.injEq, Prod.mk.injEq] at h
    rw [← h.2.1]; exact hnd

/-- A run of requests keeps the short ids distinct. -/
theorem serveAll_nodup (trace : List (Env × Request)) :
    ∀ {st st' : Store} {rng rng' : Rand}, (shortIDs st).Nodup →
      serveAll trace st rng = some (st', rng') → (shortIDs st').Nodup := by
  induction trace with
  | nil =>
    intro st st' rng rng' hnd h
    simp only [serveAll, Option.some.injEq, Prod.mk.injEq] at h
    rw [← h.1]; exact hnd
  | cons p rest ih =>
    intro st st' rng rng' hnd h
    obtain ⟨env, req⟩ := p
    simp only [serveAll] at h
    cases hs : serve env req st rng with
    | none => rw [hs] at h; simp at h
    | some out =>
      obtain ⟨resp, st1, rng1⟩ := out
      rw [hs] at h
      exact ih (serve_nodup hnd hs) h

/-- C8. The short id is unique in every reachable store: from any store whose
links table is empty, after any run of requests (creations and deletions among
them, under any environment) the short ids of the stored links are pairwise
distinct.  When an authenticated `POST /shorten` whose statement was prepared
generates a short id that a stored link already has, the answer is the generic
error, the store is as before, and the random source is as the one call of
`GenerateShortID` left it: no second id is generated. -/
theorem short_id_unique :
    (∀ (trace : List (Env × Request)) (st st' : Store) (rng rng' : Rand),
      st.links = [] → serveAll trace st rng = some (st', rng') → (shortIDs st').Nodup) ∧
    (∀ (env : Env) (st : Store) (rng rng1 : Rand) (user : Nat) (long_url s : String),
      env.prepareErr = false → GenerateShortID rng = some (s, rng1) →
      (∃ l ∈ st.links, l.ShortID = s) →
      postShorten env st rng (some user) long_url
        = some (⟨.json [("error", "Internal Server Error")], []⟩, st, rng1)) := by
  refine ⟨?_, ?_⟩
  · intro trace st st' rng rng' hempty h
    refine serveAll_nodup trace ?_ h
    unfold shortIDs
    rw [hempty]
    exact List.nodup_nil
  · intro env st rng rng1 user long_url s hp hg hex
    have hins : insertLink st s long_url env.now = none := insertLink_eq_none_of_mem hex
    have hexec : Exec env (insertLink st s long_url env.now) = none := by
      unfold Exec; rw [hins]; simp
    simp [postShorten, hp, hg, hexec]

theorem short_id_unique_witness :
    storeOneSession.links = [] ∧
    serveAll [(Env.plain 5 "u", ⟨.POST, ["shorten"], "tok", fun _ => "https://example.com"⟩)]
        storeOneSession drawsSample
      = some (storeOneLink, Rand.drop 6 drawsSample) ∧
    (shortIDs storeOneLink).Nodup ∧
    (Env.plain 9 "v").prepareErr = false ∧
    GenerateShortID drawsSample = some ("a1b2c3", Rand.drop 6 drawsSample) ∧
    (∃ l ∈ storeOneLink.links, l.ShortID = "a1b2c3") ∧
    postShorten (Env.plain 9 "v") storeOneLink drawsSample (some 1) "https://other.example"
      = some (⟨.json [("error", "Internal Server Error")], []⟩, storeOneLink,
          Rand.drop 6 drawsSample) :=
  ⟨rfl, rfl,
   short_id_unique.1
     [(Env.plain 5 "u", ⟨.POST, ["shorten"], "tok", fun _ => "https://example.com"⟩)]
     storeOneSession storeOneLink drawsSample (Rand.drop 6 drawsSample) rfl rfl,
   rfl, rfl, by decide,
   short_id_unique.2 (Env.plain 9 "v") storeOneLink drawsSample _ 1 "https://other.example"
     "a1b2c3" rfl rfl (by decide)⟩

/-! ## Sessions -/

theorem holdsSession_insert_new {st st' : Store} {tok expiry : String} {now : Time}
    (h : insertSession st tok expiry now = some st') : holdsSession tok expiry st' := by
  obtain ⟨hfresh, rfl⟩ := insertSession_eq_some h
  refine ⟨⟨⟨st.sessionsSeq + 1, tok, expiry, now⟩, by simp, rfl, rfl⟩, ?_⟩
  intro row hrow heq
  simp only [List.mem_append, List.mem_singleton] at hrow
  rcases hrow with hrow | rfl
  · exact absurd heq (hfresh row hrow)
  · rfl

theorem holdsSession_insert {st st' : Store} {tok tok2 expiry e2 : String} {now : Time}
    (hold : holdsSession tok expiry st) (h : insertSession st tok2 e2 now = some st') :
    holdsSession tok expiry st' := by
  obtain ⟨hfresh, rfl⟩ := insertSession_eq_some h
  obtain ⟨⟨row, hrow, hrt, hre⟩, hall⟩ := hold
  refine ⟨⟨row, by simp [hrow], hrt, hre⟩, ?_⟩
  intro r hr heq
  simp only [List.mem_append, List.mem_singleton] at hr
  rcases hr with hr | rfl
  · exact hall r hr heq
  · exact absurd (hrt.trans heq.symm) (hfresh row hrow)

theorem holdsSession_delete {st : Store} {tok c expiry : String}
    (hold : holdsSession tok expiry st) (hc : c ≠ tok) :
    holdsSession tok expiry (deleteSession st c) := by
  obtain ⟨⟨row, hrow, hrt, hre⟩, hall⟩ := hold
  unfold deleteSession
  refine ⟨⟨row, ?_, hrt, hre⟩, ?_⟩
  · refine List.mem_filter.mpr ⟨hrow, ?_⟩
    have : row.session_id ≠ c := fun h => hc (h.symm.trans hrt)
    simp [this]
  · intro r hr heq
    exact hall r (List.mem_of_mem_filter hr) heq

theorem holdsSession_of_sessions_eq {st st' : Store} {tok expiry : String}
    (hold : holdsSession tok expiry st) (h : st'.sessions = st.sessions) :
    holdsSession tok expiry st' := by
  unfold holdsSession at *
  rw [h]; exact hold

theorem getLogout_holds {env : Env} {st : Store} {tok c expiry : String}
    (hold : holdsSession tok expiry st) (hc : c ≠ tok) :
    holdsSession tok expiry (getLogout env st c).2 := by
  unfold getLogout Exec
  by_cases hce : c = "" <;> cases env.prepareErr <;> cases env.execErr <;>
    simp [hce] <;> first | exact hold | exact holdsSession_delete hold hc

theorem postLoginadmin_holds {env : Env} {st : Store} {tok pw expiry : String}
    (hold : holdsSession tok expiry st) :
    holdsSession tok expiry (postLoginadmin env st pw).2 := by
  rcases postLoginadmin_cases env st pw with ⟨_, h⟩ | ⟨_, h⟩
  · rw [h]; exact hold
  · exact holdsSession_insert hold h

theorem getDelete_sessions (env : Env) (st : Store) (id : String) :
    (getDelete env st id).2.sessions = st.sessions := by
  unfold getDelete Exec
  cases env.prepareErr <;> cases env.execErr <;> simp [deleteLink]

theorem postShorten_sessions {env : Env} {st st' : Store} {rng rng' : Rand}
    {cu : Option Nat} {long_url : String} {resp : Response}
    (h : postShorten env st rng cu long_url = some (resp, st', rng')) :
    st'.sessions = st.sessions := by
  unfold postShorten at h
  cases cu with
  | none =>
    simp only [Option.some.injEq, Prod.mk.injEq] at h
    rw [← h.2.1]
  | some u =>
    simp only at h
    split at h
    · simp only [Option.some.injEq, Prod.mk.injEq] at h
      rw [← h.2.1]
    · cases hg : GenerateShortID rng with
      | none => rw [hg] at h; simp at h
      | some p =>
        obtain ⟨sid, r1⟩ := p
        rw [hg] at h
        simp only at h
        cases he : Exec env (insertLink st sid long_url env.now) with
        | none =>
          rw [he] at h
          simp only [Option.some.injEq, Prod.mk.injEq] at h
          rw [← h.2.1]
        | some st1 =>
          rw [he] at h
          simp only [Option.some.injEq, Prod.mk.injEq] at h
          rw [← h.2.1]
          unfold Exec at he
          split at he
          · simp at he
          · obtain ⟨_, rfl⟩ := insertLink_eq_some he
            rfl

/-- A request that is not a logout carrying `tok` keeps the session of `tok`. -/
theorem serve_holds {env : Env} {req : Request} {st st' : Store} {rng rng' : Rand}
    {resp : Response} {tok expiry : String}
    (hold : holdsSession tok expiry st) (hrev : revokes tok req = false)
    (h : serve env req st rng = some (resp, st', rng')) : holdsSession tok expiry st' := by
  unfold serve at h
  cases hr : route req <;> rw [hr] at h <;> simp only at h
  case shorten => exact holdsSession_of_sessions_eq hold (postShorten_sessions h)
  case delete id =>
    simp only [Option.some.injEq, Prod.mk.injEq] at h
    rw [← h.2.1]
    exact holdsSession_of_sessions_eq hold (getDelete_sessions env st id)
  case logout =>
    simp only [Option.some.injEq, Prod.mk.injEq] at h
    rw [← h.2.1]
    have hc : req.session_id ≠ tok := by
      simpa [revokes, hr] using hrev
    exact getLogout_holds hold hc
  case login =>
    simp only [Option.some.injEq, Prod.mk.injEq] at h
    rw [← h.2.1]
    exact postLoginadmin_holds hold
  all_goals
    simp only [Option.some.injEq, Prod.mk.injEq] at h
    rw [← h.2.1]; exact hold

theorem serveAll_holds (trace : List (Env × Request)) {tok expiry : String} :
    ∀ {st st' : Store} {rng rng' : Rand}, holdsSession tok expiry st →
      (∀ p ∈ trace, revokes tok p.2 = false) →
      serveAll trace st rng = some (st', rng') → holdsSession tok expiry st' := by
  induction trace with
  | nil =>
    intro st st' rng rng' hold _ h
    simp only [serveAll, Option.some.injEq, Prod.mk.injEq] at h
    rw [← h.1]; exact hold
  | cons p rest ih =>
    intro st st' rng rng' hold hrev h
    obtain ⟨env, req⟩ := p
    simp only [serveAll] at h
    cases hs : serve env req st rng with
    | none => rw [hs] at h; simp at h
    | some out =>
      obtain ⟨resp, st1, rng1⟩ := out
      rw [hs] at h
      exact ih (serve_holds hold (hrev (env, req) (List.mem_cons_self _ _)) hs)
        (fun q hq => hrev q (List.mem_cons_of_mem _ hq)) h

/-- What the middleware answers for a token whose session the store holds: it
is decided by the order of the stored text and the text bound for `now`. -/
theorem currentUserMiddleware_of_holds (env : Env) {st : Store} {tok expiry : String}
    (hold : holdsSession tok expiry st) (htok : tok ≠ "") :
    (env.sessionQueryErr = false → sqlTextGt expiry (env.timeText env.now) = true →
      currentUserMiddleware env st tok = some 1) ∧
    (sqlTextGt expiry (env.timeText env.now) = false →
      currentUserMiddleware env st tok = none) := by
  obtain ⟨⟨row, hrow, hrt, hre⟩, hall⟩ := hold
  refine ⟨?_, ?_⟩
  · intro hq hgt
    have hmem : row ∈ st.sessions.filter
        (fun s => decide (s.session_id = tok) &&
          sqlTextGt s.expiry_time (env.timeText env.now)) := by
      refine List.mem_filter.mpr ⟨hrow, ?_⟩
      simp [hrt, hre, hgt]
    have hpos : countSessions st tok (env.timeText env.now) ≠ 0 := by
      unfold countSessions
      exact Nat.ne_of_gt (List.length_pos_of_mem hmem)
    simp [currentUserMiddleware, htok, hq, hpos]
  · intro hle
    have hzero : countSessions st tok (env.timeText env.now) = 0 := by
      unfold countSessions
      rw [List.length_eq_zero, List.filter_eq_nil_iff]
      intro r hr
      by_cases heq : r.session_id = tok
      · simp [heq, hall r hr heq, hle]
      · simp [heq]
    simp [currentUserMiddleware, htok, hzero]

/-- Where the code meets the 24 hours.  After a login that succeeded at
`env.now` with the non-empty token `env.uuid`, and any run of requests without
a logout carrying the token, the middleware asked in `env'` (its query
reporting no error) finds a current user exactly when the stored expiry text
is greater, as text, than the text bound for `env'.now`.  So it answers as the
instants `env'.now` and `env.now + 24h` are ordered whenever the two texts are
ordered as the two instants are. -/
theorem session_valid_of_text_order (env : Env) (st st' : Store) (pw : String)
    (resp : Response)
    (hlogin : postLoginadmin env st pw = (resp, st'))
    (hok : resp.reply = .redirect "/admin")
    (htok : env.uuid ≠ "") :
    resp.cookies = [.set "session_id" env.uuid (env.now + 24 * Hour) true] ∧
    (∃ row ∈ st'.sessions, row.session_id = env.uuid ∧
      row.expiry_time = env.timeText (env.now + 24 * Hour)) ∧
    ∀ (trace : List (Env × Request)) (rng rng2 : Rand) (st2 : Store),
      (∀ p ∈ trace, revokes env.uuid p.2 = false) →
      serveAll trace st' rng = some (st2, rng2) →
      ∀ env' : Env, env'.sessionQueryErr = false →
        (currentUserMiddleware env' st2 env.uuid = some 1 ↔
          sqlTextGt (env.timeText (env.now + 24 * Hour)) (env'.timeText env'.now) = true) ∧
        ((sqlTextGt (env.timeText (env.now + 24 * Hour)) (env'.timeText env'.now) = true ↔
            env'.now < env.now + 24 * Hour) →
          (currentUserMiddleware env' st2 env.uuid = some 1 ↔
            env'.now < env.now + 24 * Hour)) := by
  have hresp : (postLoginadmin env st pw).1 = resp := by rw [hlogin]
  have hst : (postLoginadmin env st pw).2 = st' := by rw [hlogin]
  rcases postLoginadmin_cases env st pw with ⟨h1, _⟩ | ⟨h1, h2⟩
  · rw [hresp] at h1
    rw [h1] at hok
    simp at hok
  · rw [hresp] at h1
    rw [hst] at h2
    have hold := holdsSession_insert_new h2
    refine ⟨by rw [h1], hold.1, ?_⟩
    intro trace rng rng2 st2 hrev hrun env' hq
    have hold2 := serveAll_holds trace hold hrev hrun
    obtain ⟨hvalid, hexpired⟩ := currentUserMiddleware_of_holds env' hold2 htok
    have hiff : currentUserMiddleware env' st2 env.uuid = some 1 ↔
        sqlTextGt (env.timeText (env.now + 24 * Hour)) (env'.timeText env'.now) = true := by
      refine ⟨?_, hvalid hq⟩
      intro hsome
      by_contra hnot
      rw [hexpired (by simpa using hnot)] at hsome
      simp at hsome
    exact ⟨hiff, fun hord => hiff.trans hord⟩

/-- C3 (the code departs from the claim). The process runs in
America/Los_Angeles, where on 3 November 2024 the clocks go back from 02:00 PDT
to 01:00 PST.  The two timestamps of the session check are compared as the
texts the driver wrote, that is by local wall clock.
First login, on 2 November at 01:30 PDT: the session expires on 3 November at
08:30 UTC, stored as `01:30:00 -0700 PDT`; at 09:10 UTC, forty minutes after
the expiry, the clock reads `01:10:00 -0800 PST` and the middleware still finds
a current user.
Second login, on 2 November at 02:10 PDT: the session expires on 3 November at
09:10 UTC, stored as `01:10:00 -0800 PST`; at 08:50 UTC, twenty minutes before
the expiry, the clock reads `01:50:00 -0700 PDT` and the middleware finds no
current user. -/
theorem session_check_compares_wall_clock_text :
    (postLoginadmin (Env.pacific (1730536200 * 1000000000) "u-1") Store.empty "admin"
        = (⟨.redirect "/admin",
            [.set "session_id" "u-1" (1730536200 * 1000000000 + 24 * Hour) true]⟩,
           ⟨[], 0, [⟨1, "u-1", "2024-11-03 01:30:00 -0700 PDT m=+88200.000000001",
              1730536200 * 1000000000⟩], 1⟩) ∧
      (1730536200 * 1000000000 + 24 * Hour : Time) < 1730625000 * 1000000000 ∧
      (Env.pacific (1730625000 * 1000000000) "x").timeText (1730625000 * 1000000000)
        = "2024-11-03 01:10:00 -0800 PST m=+90600.000000001" ∧
      currentUserMiddleware (Env.pacific (1730625000 * 1000000000) "x")
        ⟨[], 0, [⟨1, "u-1", "2024-11-03 01:30:00 -0700 PDT m=+88200.000000001",
          1730536200 * 1000000000⟩], 1⟩ "u-1" = some 1) ∧
    (postLoginadmin (Env.pacific (1730538600 * 1000000000) "u-2") Store.empty "admin"
        = (⟨.redirect "/admin",
            [.set "session_id" "u-2" (1730538600 * 1000000000 + 24 * Hour) true]⟩,
           ⟨[], 0, [⟨1, "u-2", "2024-11-03 01:10:00 -0800 PST m=+90600.000000001",
              1730538600 * 1000000000⟩], 1⟩) ∧
      (1730623800 * 1000000000 : Time) < 1730538600 * 1000000000 + 24 * Hour ∧
      (Env.pacific (1730623800 * 1000000000) "x").timeText (1730623800 * 1000000000)
        = "2024-11-03 01:50:00 -0700 PDT m=+89400.000000001" ∧
      currentUserMiddleware (Env.pacific (1730623800 * 1000000000) "x")
        ⟨[], 0, [⟨1, "u-2", "2024-11-03 01:10:00 -0800 PST m=+90600.000000001",
          1730538600 * 1000000000⟩], 1⟩ "u-2" = none) := by
  decide

/-- In a process whose zone offset does not change, here UTC, the same check
follows the instants: the session opened at instant 1000 is found one
nanosecond before `1000 + 24h` and no longer at `1000 + 24h`. -/
theorem session_check_in_utc :
    postLoginadmin (Env.plain 1000 "u-1") storeOneSession "admin"
      = (⟨.redirect "/admin", [.set "session_id" "u-1" (1000 + 24 * Hour) true]⟩,
         ⟨[], 0, [sessionTok,
            ⟨2, "u-1", "1970-01-02 00:00:00.000001 +0000 UTC m=+86400.000001001", 1000⟩], 2⟩) ∧
    currentUserMiddleware (Env.plain (1000 + 24 * Hour - 1) "y")
      ⟨[], 0, [sessionTok,
        ⟨2, "u-1", "1970-01-02 00:00:00.000001 +0000 UTC m=+86400.000001001", 1000⟩], 2⟩
      "u-1" = some 1 ∧
    currentUserMiddleware (Env.plain (1000 + 24 * Hour) "y")
      ⟨[], 0, [sessionTok,
        ⟨2, "u-1", "1970-01-02 00:00:00.000001 +0000 UTC m=+86400.000001001", 1000⟩], 2⟩
      "u-1" = none := by
  decide

/-! ## Routing of one-segment paths -/

/-- The router compares paths without regard to case: `GET /LOGOUT` is a
logout, `GET /DELETE/1` deletes link 1, `POST /Shorten` creates; the parameter
of `/:short_id` keeps its case. -/
theorem route_ignores_case :
    route (bareRequest .GET ["LOGOUT"]) = .logout ∧
    route (bareRequest .GET ["DELETE", "1"]) = .delete "1" ∧
    route (bareRequest .POST ["Shorten"]) = .shorten ∧
    route (bareRequest .GET ["A1b2C3"]) = .shortID "A1b2C3" ∧
    revokes "tok" ⟨.GET, ["LogOut"], "tok", fun _ => ""⟩ = true := by
  decide

/-- A one-segment `GET` path reaches the `/:short_id` handler unless the
segment is, in lower case, the name of a route registered before it. -/
theorem routeGet_single (s : String)
    (h : lower s ∉ ["static", "loginadmin", "admin", "new", "logout"]) :
    routeGet [s] = .shortID s := by
  simp only [List.mem_cons, List.mem_singleton, List.not_mem_nil, or_false, not_or] at h
  obtain ⟨h1, h2, h3, h4, h5⟩ := h
  simp [routeGet, h1, h2, h3, h4, h5]

/-- For such a segment the round trip also holds through the router: the
request `GET /s` with any cookie is answered by the redirect to the long URL. -/
theorem serve_created_short_id (env env' : Env) (st st' : Store) (rng rng' rng2 : Rand)
    (user : Nat) (long_url s cookie : String) (resp : Response) (form : String → String)
    (hcreate : postShorten env st rng (some user) long_url = some (resp, st', rng'))
    (hs : resp.reply = .json [("short_id", s)])
    (hq : env'.queryErr = false)
    (hroute : lower s ∉ ["static", "loginadmin", "admin", "new", "logout"]) :
    serve env' ⟨.GET, [s], cookie, form⟩ st' rng2
      = some (⟨.redirect long_url, []⟩, st', rng2) := by
  have hr : route ⟨.GET, [s], cookie, form⟩ = .shortID s := routeGet_single s hroute
  have hget : getShortID env' st' s = ⟨.redirect long_url, []⟩ :=
    getShortID_after_postShorten hcreate hs hq
  simp [serve, hr, hget]

/-- The short id `logout`, which the draws 11, 14, 6, 14, 20, 19 give, is also
the name of the route registered at main.go:173: the link is stored, and
`GET /logout` is taken by the logout handler, not by `/:short_id`. -/
theorem serve_logout_route_first :
    postShorten (Env.plain 5 "u") storeOneSession drawsLogout (some 1) "https://example.com"
      = some (⟨.json [("short_id", "logout")], []⟩,
          ⟨[⟨1, "logout", "https://example.com", 5⟩], 1, [sessionTok], 1⟩,
          Rand.drop 6 drawsLogout) ∧
    route (bareRequest .GET ["logout"]) = .logout ∧
    (serve (Env.plain 9 "v") (bareRequest .GET ["logout"])
        ⟨[⟨1, "logout", "https://example.com", 5⟩], 1, [sessionTok], 1⟩
        drawsSample).map (fun out => out.1)
      = some ⟨.redirect "/", [.clear "session_id"]⟩ := by
  refine ⟨rfl, rfl, ?_⟩
  decide

end OpenLy
